import Mathlib

/-!
Verification of the box-layout text-rendering engine in `rendering.py`
(`TableFormatter` repository).

The Python program is a small object tree: an abstract `Block` with mutable
`width`/`height` fields and five concrete kinds (`Element`, `HorizontalLine`,
`VerticalLine`, `Column`, `Row`).  We embed a block as an inductive tree that
carries the two mutable size fields at every node.  Python methods that
mutate state are embedded as functions returning the updated tree:

* `get_min_width` / `get_min_height` are pure in the source (they read only
  the structure and texts, never the size fields) and become pure recursive
  functions.
* `set_width` / `set_height` return the block with the size field enlarged.
* `get_formatted_list` both returns lines and mutates child sizes; we split
  it into `fmt` (the lines) and `upd` (the mutated tree).  Both take two
  extra arguments `w h`: the sizes pushed into the block by pending
  `set_width w` / `set_height h` calls from its container (`0` when none,
  since `set_width 0` is a no-op).  This turns the imperative
  "`child.set_width(self.width); child.get_formatted_list()`" into the
  structural call `fmt child self.width 0`.
-/

namespace TableFormatter

/-- Layout tree.  One constructor per concrete Python class; every node
stores the mutable `width`/`height` fields of `Block.__init__`, containers
additionally store their `blocks` list. -/
inductive Block where
  | element (text : String) (width height : Nat)
  | horizontalLine (width height : Nat)
  | verticalLine (width height : Nat)
  | column (blocks : List Block) (width height : Nat)
  | row (blocks : List Block) (width height : Nat)

/-- The `self.width` field. -/
def Block.width : Block → Nat
  | .element _ w _ => w
  | .horizontalLine w _ => w
  | .verticalLine w _ => w
  | .column _ w _ => w
  | .row _ w _ => w

/-- The `self.height` field. -/
def Block.height : Block → Nat
  | .element _ _ h => h
  | .horizontalLine _ h => h
  | .verticalLine _ h => h
  | .column _ _ h => h
  | .row _ _ h => h

mutual

/-- `get_min_width` of each class.  `Element`: `len(self.text) + 2`;
`HorizontalLine`: `0`; `VerticalLine`: `1`; `Column`: max over children
(`0` for no children); `Row`: sum over children.  The Python bodies read
only `text` and the children, never the size fields. -/
def get_min_width : Block → Nat
  | .element t _ _ => t.length + 2
  | .horizontalLine _ _ => 0
  | .verticalLine _ _ => 1
  | .column bs _ _ => maxMinWidth bs
  | .row bs _ _ => sumMinWidth bs

/-- `get_min_height` of each class (dual of `get_min_width`). -/
def get_min_height : Block → Nat
  | .element _ _ _ => 1
  | .horizontalLine _ _ => 1
  | .verticalLine _ _ => 0
  | .column bs _ _ => sumMinHeight bs
  | .row bs _ _ => maxMinHeight bs

/-- `max([e.get_min_width() for e in blocks])`, and `0` for an empty list;
identical to the Python guard because all the summands are nonnegative. -/
def maxMinWidth : List Block → Nat
  | [] => 0
  | b :: bs => max (get_min_width b) (maxMinWidth bs)

/-- `sum([e.get_min_width() for e in blocks])`. -/
def sumMinWidth : List Block → Nat
  | [] => 0
  | b :: bs => get_min_width b + sumMinWidth bs

/-- `sum([e.get_min_height() for e in blocks])`. -/
def sumMinHeight : List Block → Nat
  | [] => 0
  | b :: bs => get_min_height b + sumMinHeight bs

/-- `max([e.get_min_height() for e in blocks])`, `0` for an empty list. -/
def maxMinHeight : List Block → Nat
  | [] => 0
  | b :: bs => max (get_min_height b) (maxMinHeight bs)

end

/-- `Block.set_width`: `self.width = max(self.width, width)`.  The argument
is an arbitrary Python int; since the stored field is always nonnegative,
`max(self.width, w) = max(self.width, max(w, 0)) = max self.width w.toNat`. -/
def set_width (w : Int) : Block → Block
  | .element t bw bh => .element t (max bw w.toNat) bh
  | .horizontalLine bw bh => .horizontalLine (max bw w.toNat) bh
  | .verticalLine bw bh => .verticalLine (max bw w.toNat) bh
  | .column bs bw bh => .column bs (max bw w.toNat) bh
  | .row bs bw bh => .row bs (max bw w.toNat) bh

/-- `Block.set_height`: `self.height = max(self.height, height)`. -/
def set_height (h : Int) : Block → Block
  | .element t bw bh => .element t bw (max bh h.toNat)
  | .horizontalLine bw bh => .horizontalLine bw (max bh h.toNat)
  | .verticalLine bw bh => .verticalLine bw (max bh h.toNat)
  | .column bs bw bh => .column bs bw (max bh h.toNat)
  | .row bs bw bh => .row bs bw (max bh h.toNat)

/-- `Column.add_block` / `Row.add_block`: append the child, then
`self.set_width(self.get_min_width()); self.set_height(self.get_min_height())`
with the minimums recomputed from the updated child list.  Calling
`add_block` on a leaf raises `AttributeError` in Python; that case is
embedded as the identity and is never exercised by any claim. -/
def add_block (b c : Block) : Block :=
  match b with
  | .column bs bw bh =>
      .column (bs ++ [c]) (max bw (maxMinWidth (bs ++ [c])))
        (max bh (sumMinHeight (bs ++ [c])))
  | .row bs bw bh =>
      .row (bs ++ [c]) (max bw (sumMinWidth (bs ++ [c])))
        (max bh (maxMinHeight (bs ++ [c])))
  | b => b

/-- `Element(text)`: `self.text = text`, then `Block.__init__` sets
`width = get_min_width() = len(text) + 2` and `height = get_min_height() = 1`. -/
def Element.make (t : String) : Block := .element t (t.length + 2) 1

/-- `HorizontalLine()`: `width = 0`, `height = 1`. -/
def HorizontalLine.make : Block := .horizontalLine 0 1

/-- `VerticalLine()`: `width = 1`, `height = 0`. -/
def VerticalLine.make : Block := .verticalLine 1 0

/-- `Column()`: empty child list, `width = 0`, `height = 0`. -/
def Column.make : Block := .column [] 0 0

/-- `Row()`: empty child list, `width = 0`, `height = 0`. -/
def Row.make : Block := .row [] 0 0

/-- A run of `n` spaces: `" " * n`. -/
def spaces (n : Nat) : String := String.mk (List.replicate n ' ')

/-- `str.center(width)` of CPython (`Objects/unicodeobject.c`, `unicode_center`
with the default space fill): unchanged when `len(self) >= width`, otherwise
`marg = width - len(self)` and `left = marg / 2 + (marg & width & 1)` padding
characters go to the left, the remaining `marg - left` to the right. -/
def pyCenter (t : String) (width : Nat) : String :=
  if width ≤ t.length then t
  else
    let marg := width - t.length
    let left := marg / 2 + (marg &&& width &&& 1)
    spaces left ++ t ++ spaces (marg - left)

/-- The running merge of `Row.get_formatted_list`:
`for i, line in enumerate(lines): if i >= len(result): result.append(line)
else: result[i] += line` — positions present in both get concatenated,
the tail of the longer side is kept as is. -/
def mergeLines : List String → List String → List String
  | [], ys => ys
  | xs, [] => xs
  | x :: xs, y :: ys => (x ++ y) :: mergeLines xs ys

mutual

/-- Lines of `get_formatted_list` on a block whose container has just run
`set_width w; set_height h` on it (pass `0 0` for a bare call): the block's
effective width is `max self.width w`, its effective height
`max self.height h`.

* `Element`: `indent_above = indent_under = height // 2`, and when
  `height % 2 != 1` the Python code decrements `indent_above`; for
  `height = 0` that makes it `-1` and `range(-1)` is empty, which truncated
  `Nat` subtraction reproduces exactly.  The lines are `indent_above` blank
  rows, `self.text.center(self.width)`, `indent_under` blank rows.
* `HorizontalLine`: `[HORIZONTAL_DELIMITER * self.width]`.
* `VerticalLine`: `[VERTICAL_DELIMITER] * self.height`.
* `Column`: loop over children via `fmtColumn`.
* `Row`: loop over children via `fmtRow`. -/
def fmt : Block → Nat → Nat → List String
  | .element t bw bh, w, h =>
      let width := max bw w
      let height := max bh h
      let indent_above := if height % 2 ≠ 1 then height / 2 - 1 else height / 2
      let indent_under := height / 2
      List.replicate indent_above (spaces width) ++
        [pyCenter t width] ++ List.replicate indent_under (spaces width)
  | .horizontalLine bw _, w, _ => [String.mk (List.replicate (max bw w) '-')]
  | .verticalLine _ bh, _, h => List.replicate (max bh h) "|"
  | .column bs bw _, w, _ => fmtColumn (max bw w) [] bs
  | .row bs _ bh, _, h => fmtRow (max bh h) [] bs

/-- `Column.get_formatted_list` loop, `acc` is `result`:
`for block in blocks: block.set_width(self.width); result += block.get_formatted_list()`. -/
def fmtColumn (w : Nat) (acc : List String) : List Block → List String
  | [] => acc
  | b :: bs => fmtColumn w (acc ++ fmt b w 0) bs

/-- `Row.get_formatted_list` loop, `acc` is `result`:
`for block in blocks: block.set_height(self.height)`, then merge the child's
lines into `result` position by position. -/
def fmtRow (h : Nat) (acc : List String) : List Block → List String
  | [] => acc
  | b :: bs => fmtRow h (mergeLines acc (fmt b 0 h)) bs

end

mutual

/-- State of a block after `set_width w; set_height h; get_formatted_list()`:
the size fields take the pending maxima, and rendering a container runs
`set_width(self.width)` (column) or `set_height(self.height)` (row) on every
child followed by that child's own `get_formatted_list`. -/
def upd : Block → Nat → Nat → Block
  | .element t bw bh, w, h => .element t (max bw w) (max bh h)
  | .horizontalLine bw bh, w, h => .horizontalLine (max bw w) (max bh h)
  | .verticalLine bw bh, w, h => .verticalLine (max bw w) (max bh h)
  | .column bs bw bh, w, h => .column (updColumn (max bw w) bs) (max bw w) (max bh h)
  | .row bs bw bh, w, h => .row (updRow (max bh h) bs) (max bw w) (max bh h)
def updColumn (w : Nat) : List Block → List Block
  | [] => []
  | b :: bs => upd b w 0 :: updColumn w bs
def updRow (h : Nat) : List Block → List Block
  | [] => []
  | b :: bs => upd b 0 h :: updRow h bs

end

/-- `get_formatted_list` as called directly on a block (no pending sizes from
a container): the returned lines together with the mutated tree. -/
def get_formatted_list (b : Block) : List String × Block := (fmt b 0 0, upd b 0 0)

mutual

/-- Run `set_width w` on the sub-block reached by following the child
indices in `p` (Python lets a caller invoke `set_width` on any block it
holds a reference to; in the tree embedding that is a path from the root).
A path into a leaf or past the end of a child list addresses no block and
leaves the tree unchanged. -/
def setWidthAt : List Nat → Int → Block → Block
  | [], w, b => set_width w b
  | i :: p, w, .column bs bw bh => .column (setWidthAtL i p w bs) bw bh
  | i :: p, w, .row bs bw bh => .row (setWidthAtL i p w bs) bw bh
  | _ :: _, _, b => b

def setWidthAtL : Nat → List Nat → Int → List Block → List Block
  | _, _, _, [] => []
  | 0, p, w, b :: bs => setWidthAt p w b :: bs
  | i + 1, p, w, b :: bs => b :: setWidthAtL i p w bs

end

mutual

/-- `set_height h` on the sub-block at path `p` (see `setWidthAt`). -/
def setHeightAt : List Nat → Int → Block → Block
  | [], h, b => set_height h b
  | i :: p, h, .column bs bw bh => .column (setHeightAtL i p h bs) bw bh
  | i :: p, h, .row bs bw bh => .row (setHeightAtL i p h bs) bw bh
  | _ :: _, _, b => b

def setHeightAtL : Nat → List Nat → Int → List Block → List Block
  | _, _, _, [] => []
  | 0, p, h, b :: bs => setHeightAt p h b :: bs
  | i + 1, p, h, b :: bs => b :: setHeightAtL i p h bs

end

mutual

/-- `add_block c` on the sub-block at path `p` (see `setWidthAt`). -/
def addBlockAt : List Nat → Block → Block → Block
  | [], c, b => add_block b c
  | i :: p, c, .column bs bw bh => .column (addBlockAtL i p c bs) bw bh
  | i :: p, c, .row bs bw bh => .row (addBlockAtL i p c bs) bw bh
  | _ :: _, _, b => b

def addBlockAtL : Nat → List Nat → Block → List Block → List Block
  | _, _, _, [] => []
  | 0, p, c, b :: bs => addBlockAt p c b :: bs
  | i + 1, p, c, b :: bs => b :: addBlockAtL i p c bs

end

mutual

/-- The spec's invariant, decided over the whole tree: every block `b` in
the tree has `b.width ≥ b.get_min_width()` and `b.height ≥ b.get_min_height()`. -/
def goodTree : Block → Bool
  | .element t bw bh => decide (get_min_width (.element t bw bh) ≤ bw) &&
      decide (get_min_height (.element t bw bh) ≤ bh)
  | .horizontalLine bw bh => decide (get_min_width (.horizontalLine bw bh) ≤ bw) &&
      decide (get_min_height (.horizontalLine bw bh) ≤ bh)
  | .verticalLine bw bh => decide (get_min_width (.verticalLine bw bh) ≤ bw) &&
      decide (get_min_height (.verticalLine bw bh) ≤ bh)
  | .column bs bw bh => decide (get_min_width (.column bs bw bh) ≤ bw) &&
      decide (get_min_height (.column bs bw bh) ≤ bh) && goodTreeL bs
  | .row bs bw bh => decide (get_min_width (.row bs bw bh) ≤ bw) &&
      decide (get_min_height (.row bs bw bh) ≤ bh) && goodTreeL bs

def goodTreeL : List Block → Bool
  | [] => true
  | b :: bs => goodTree b && goodTreeL bs

end

/-- Sum of the children's stored `width` fields. -/
def sumWidths : List Block → Nat
  | [] => 0
  | b :: bs => b.width + sumWidths bs

/-- Sum of the children's stored `height` fields. -/
def sumHeights : List Block → Nat
  | [] => 0
  | b :: bs => b.height + sumHeights bs

mutual

/-- Size consistency of a block about to render with pending sizes `w h`
(its effective size is `max self.width w` by `max self.height h`) — the
formalisation of the spec's "after its size has been finalized":

* an `Element` needs effective height ≥ 1 and its text no wider than its
  effective width;
* a `HorizontalLine` needs effective height exactly 1 (it always renders a
  single line), a `VerticalLine` effective width exactly 1;
* a `Column` needs every child no wider than the column (so the width push
  at render time is exact), every child recursively consistent under that
  push, and the children's heights summing to the column's effective height;
* a `Row` is dual: children no taller than the row, recursively consistent
  under the height push, widths summing to the row's effective width, and
  an empty row needs effective height 0. -/
def finalized : Block → Nat → Nat → Bool
  | .element t bw bh, w, h => decide (t.length ≤ max bw w) && decide (1 ≤ max bh h)
  | .horizontalLine _ bh, _, h => max bh h == 1
  | .verticalLine bw _, w, _ => max bw w == 1
  | .column bs bw bh, w, h =>
      finColL (max bw w) bs && (sumHeights bs == max bh h)
  | .row bs bw bh, w, h =>
      finRowL (max bh h) bs && (sumWidths bs == max bw w) &&
        (!bs.isEmpty || max bh h == 0)

def finColL (w : Nat) : List Block → Bool
  | [] => true
  | b :: bs => finalized b w 0 && decide (b.width ≤ w) && finColL w bs

def finRowL (h : Nat) : List Block → Bool
  | [] => true
  | b :: bs => finalized b 0 h && decide (b.height ≤ h) && finRowL h bs

end

/-- The trees reachable by the construction discipline the module uses:
fresh blocks from the five constructors, `set_width`/`set_height` on any
block of the tree (any path), and `add_block` of a built block at the root
(containers are populated before being added to their own parent). -/
inductive Built : Block → Prop where
  | element (t : String) : Built (Element.make t)
  | horizontalLine : Built HorizontalLine.make
  | verticalLine : Built VerticalLine.make
  | column : Built Column.make
  | row : Built Row.make
  | setW (p : List Nat) (w : Int) {b : Block} : Built b → Built (setWidthAt p w b)
  | setH (p : List Nat) (h : Int) {b : Block} : Built b → Built (setHeightAt p h b)
  | addB {b c : Block} : Built b → Built c → Built (add_block b c)

/-- Modelled from the spec: `str()` of a `numpy.float64` whose value is an
exact nonnegative integer `n` prints as `"n.0"`.  The transportation example
only ever stringifies such values (the given supplies, costs and demands,
and their sum `480.0`, are all small integers, so the float arithmetic is
exact). -/
def pyFloatStr (n : Nat) : String := toString n ++ ".0"

/-- The inputs of `TransportationProblemTableFormatter`: the supply vector,
cost matrix and demand vector.  All values in the docstring example are
exact small integers, so they are carried as `Nat` (see `pyFloatStr`). -/
structure TransportationProblemTableFormatter where
  s_array : List Nat
  c_array : List (List Nat)
  d_array : List Nat

namespace TransportationProblemTableFormatter

/-- `_create_source_column`: a `Column` of the `"Source"` title (heightened
to 3), a divider, one `"A{i+1}"` label per supply row, a divider, `"Demand"`. -/
def create_source_column (f : TransportationProblemTableFormatter) : Block :=
  let col := add_block Column.make (set_height 3 (Element.make "Source"))
  let col := add_block col HorizontalLine.make
  let col := (List.range f.s_array.length).foldl
    (fun c i => add_block c (Element.make ("A" ++ toString (i + 1)))) col
  let col := add_block col HorizontalLine.make
  add_block col (Element.make "Demand")

/-- `_create_destination_table`: per destination `i` a `Column` of the
`"D{i+1}"` label, a divider, the costs `c_array[j][i]`, a divider and the
demand `d_array[i]`; those columns side by side in a `Row`, under a
`"Destination"` title and divider in an outer `Column`. -/
def create_destination_table (f : TransportationProblemTableFormatter) : Block :=
  let dcols := (List.range f.d_array.length).foldl
    (fun r i =>
      let dc := add_block Column.make (Element.make ("D" ++ toString (i + 1)))
      let dc := add_block dc HorizontalLine.make
      let dc := (List.range f.s_array.length).foldl
        (fun c j => add_block c (Element.make (pyFloatStr ((f.c_array.getD j []).getD i 0)))) dc
      let dc := add_block dc HorizontalLine.make
      add_block r (add_block dc (Element.make (pyFloatStr (f.d_array.getD i 0)))))
    Row.make
  let dt := add_block Column.make (Element.make "Destination")
  let dt := add_block dt HorizontalLine.make
  add_block dt dcols

/-- `_create_supply_column`: the `"Supply"` title (heightened to 3), a
divider, one cell per supply value, a divider, and the total `sum(s_array)`. -/
def create_supply_column (f : TransportationProblemTableFormatter) : Block :=
  let col := add_block Column.make (set_height 3 (Element.make "Supply"))
  let col := add_block col HorizontalLine.make
  let col := (List.range f.s_array.length).foldl
    (fun c i => add_block c (Element.make (pyFloatStr (f.s_array.getD i 0)))) col
  let col := add_block col HorizontalLine.make
  add_block col (Element.make (pyFloatStr f.s_array.sum))

/-- `_create_table`: the three column groups with interleaved
`VerticalLine`s in a `Row`, wrapped in `HorizontalLine`s in a `Column`. -/
def create_table (f : TransportationProblemTableFormatter) : Block :=
  let table := add_block Row.make VerticalLine.make
  let table := add_block table (create_source_column f)
  let table := add_block table VerticalLine.make
  let table := add_block table (create_destination_table f)
  let table := add_block table VerticalLine.make
  let table := add_block table (create_supply_column f)
  let table := add_block table VerticalLine.make
  let twhl := add_block Column.make HorizontalLine.make
  let twhl := add_block twhl table
  add_block twhl HorizontalLine.make

/-- `format()`: builds the table and returns it. -/
def format (f : TransportationProblemTableFormatter) : Block := create_table f

end TransportationProblemTableFormatter

/-! ### Basic lemmas about the size setters -/

theorem width_set_width (w : Int) (b : Block) :
    (set_width w b).width = max b.width w.toNat := by
  cases b <;> rfl

theorem height_set_width (w : Int) (b : Block) :
    (set_width w b).height = b.height := by
  cases b <;> rfl

theorem width_set_height (h : Int) (b : Block) :
    (set_height h b).width = b.width := by
  cases b <;> rfl

theorem height_set_height (h : Int) (b : Block) :
    (set_height h b).height = max b.height h.toNat := by
  cases b <;> rfl

theorem get_min_width_set_width (w : Int) (b : Block) :
    get_min_width (set_width w b) = get_min_width b := by
  cases b <;> rfl

theorem get_min_height_set_width (w : Int) (b : Block) :
    get_min_height (set_width w b) = get_min_height b := by
  cases b <;> rfl

theorem get_min_width_set_height (h : Int) (b : Block) :
    get_min_width (set_height h b) = get_min_width b := by
  cases b <;> rfl

theorem get_min_height_set_height (h : Int) (b : Block) :
    get_min_height (set_height h b) = get_min_height b := by
  cases b <;> rfl

/-! ### The container minimums as folds over the children (C4) -/

theorem maxMinWidth_eq (bs : List Block) :
    maxMinWidth bs = (bs.map get_min_width).foldr max 0 := by
  induction bs with
  | nil => rfl
  | cons b bs ih => simp [maxMinWidth, ih]

theorem sumMinWidth_eq (bs : List Block) :
    sumMinWidth bs = (bs.map get_min_width).sum := by
  induction bs with
  | nil => rfl
  | cons b bs ih => simp [sumMinWidth, ih]

theorem sumMinHeight_eq (bs : List Block) :
    sumMinHeight bs = (bs.map get_min_height).sum := by
  induction bs with
  | nil => rfl
  | cons b bs ih => simp [sumMinHeight, ih]

theorem maxMinHeight_eq (bs : List Block) :
    maxMinHeight bs = (bs.map get_min_height).foldr max 0 := by
  induction bs with
  | nil => rfl
  | cons b bs ih => simp [maxMinHeight, ih]

/-- C4 (confirmed): a `Column`'s `getMinWidth` is the maximum of its
children's `getMinWidth` (`0` with no children, the base of the fold) and
its `getMinHeight` the sum of their `getMinHeight`s; a `Row`'s `getMinWidth`
is the sum of its children's `getMinWidth`s and its `getMinHeight` the
maximum of their `getMinHeight`s (`0` with no children). -/
theorem spec_C4 (bs : List Block) (w h : Nat) :
    get_min_width (.column bs w h) = (bs.map get_min_width).foldr max 0 ∧
    get_min_height (.column bs w h) = (bs.map get_min_height).sum ∧
    get_min_width (.row bs w h) = (bs.map get_min_width).sum ∧
    get_min_height (.row bs w h) = (bs.map get_min_height).foldr max 0 := by
  exact ⟨maxMinWidth_eq bs, sumMinHeight_eq bs, sumMinWidth_eq bs, maxMinHeight_eq bs⟩

/-- C5 (confirmed): for every block and arbitrary integers, `set_width w`
sets the width to `max(width, w)` (read in ℤ; the stored field is the
nonnegative value) and `set_height h` dually; a call with a value at most
the current size returns the block completely unchanged. -/
theorem spec_C5 (b : Block) (w h : Int) :
    ((set_width w b).width : Int) = max (b.width : Int) w ∧
    ((set_height h b).height : Int) = max (b.height : Int) h ∧
    (w ≤ (b.width : Int) → set_width w b = b) ∧
    (h ≤ (b.height : Int) → set_height h b = b) := by
  refine ⟨?_, ?_, ?_, ?_⟩
  · rw [width_set_width]; omega
  · rw [height_set_height]; omega
  · intro hw
    cases b <;> simp_all [set_width, Block.width]
  · intro hh
    cases b <;> simp_all [set_height, Block.height]

/-- Witness for C5 at the block `Element("hi")` (width 4, height 1),
`w = 2`, `h = 1`. -/
theorem spec_C5_witness :
    ((set_width 2 (Element.make "hi")).width : Int) =
      max ((Element.make "hi").width : Int) 2 ∧
    ((set_height 1 (Element.make "hi")).height : Int) =
      max ((Element.make "hi").height : Int) 1 ∧
    set_width 2 (Element.make "hi") = Element.make "hi" ∧
    set_height 1 (Element.make "hi") = Element.make "hi" := by
  have h := spec_C5 (Element.make "hi") 2 1
  exact ⟨h.1, h.2.1, h.2.2.1 (by decide), h.2.2.2 (by decide)⟩

/-! ### String and line-merging helper lemmas -/

theorem string_empty_append (s : String) : "" ++ s = s := by
  cases s; rfl

theorem string_append_empty (s : String) : s ++ "" = s := by
  apply String.ext; rw [String.data_append]; simp

theorem string_join_cons_aux (l : List String) (a s : String) :
    l.foldl (· ++ ·) (s ++ a) = s ++ l.foldl (· ++ ·) a := by
  induction l generalizing a with
  | nil => rfl
  | cons x xs ih => simp only [List.foldl_cons, String.append_assoc, ih]

theorem string_join_cons (a : String) (l : List String) :
    String.join (a :: l) = a ++ String.join l := by
  have h := string_join_cons_aux l "" a
  rw [string_append_empty] at h
  show (a :: l).foldl (· ++ ·) "" = _
  rw [List.foldl_cons, string_empty_append, h]
  rfl

theorem mergeLines_nil_left (ys : List String) : mergeLines [] ys = ys := by
  cases ys <;> rfl

theorem mergeLines_nil_right (xs : List String) : mergeLines xs [] = xs := by
  cases xs <;> rfl

theorem mergeLines_length (xs ys : List String) :
    (mergeLines xs ys).length = max xs.length ys.length := by
  induction xs generalizing ys with
  | nil => simp [mergeLines]
  | cons x xs ih =>
    cases ys with
    | nil => simp [mergeLines]
    | cons y ys => simp [mergeLines, ih]; omega

theorem mergeLines_getD (xs ys : List String) (i : Nat) :
    (mergeLines xs ys).getD i "" = xs.getD i "" ++ ys.getD i "" := by
  induction xs generalizing ys i with
  | nil => simp [mergeLines, string_empty_append]
  | cons x xs ih =>
    cases ys with
    | nil => simp [mergeLines_nil_right, string_append_empty]
    | cons y ys =>
      cases i with
      | zero => rfl
      | succ i => simp only [mergeLines, List.getD_cons_succ, ih]

theorem mergeLines_assoc (xs ys zs : List String) :
    mergeLines (mergeLines xs ys) zs = mergeLines xs (mergeLines ys zs) := by
  induction xs generalizing ys zs with
  | nil => simp [mergeLines]
  | cons x xs ih =>
    cases ys with
    | nil => simp [mergeLines, mergeLines_nil_right]
    | cons y ys =>
      cases zs with
      | nil => simp [mergeLines_nil_right]
      | cons z zs => simp [mergeLines, ih, String.append_assoc]

/-! ### The container rendering loops as folds -/

theorem fmtColumn_acc (w : Nat) (acc : List String) (bs : List Block) :
    fmtColumn w acc bs = acc ++ fmtColumn w [] bs := by
  induction bs generalizing acc with
  | nil => simp [fmtColumn]
  | cons b bs ih =>
    simp only [fmtColumn]
    rw [ih (acc ++ fmt b w 0), ih ([] ++ fmt b w 0)]
    simp

theorem fmtColumn_flatten (w : Nat) (bs : List Block) :
    fmtColumn w [] bs = (bs.map (fun c => fmt c w 0)).flatten := by
  induction bs with
  | nil => rfl
  | cons b bs ih =>
    simp only [fmtColumn, List.map_cons, List.flatten_cons]
    rw [fmtColumn_acc, ih]
    simp

theorem fmtRow_acc (h : Nat) (acc : List String) (bs : List Block) :
    fmtRow h acc bs = mergeLines acc (fmtRow h [] bs) := by
  induction bs generalizing acc with
  | nil => simp [fmtRow, mergeLines_nil_right]
  | cons b bs ih =>
    simp only [fmtRow]
    rw [ih (mergeLines acc (fmt b 0 h)), ih (mergeLines [] (fmt b 0 h)),
      mergeLines_assoc, mergeLines_nil_left]

theorem fmtRow_cons (h : Nat) (b : Block) (bs : List Block) :
    fmtRow h [] (b :: bs) = mergeLines (fmt b 0 h) (fmtRow h [] bs) := by
  show fmtRow h (mergeLines [] (fmt b 0 h)) bs = _
  rw [fmtRow_acc, mergeLines_nil_left]

theorem fmtRow_length (h : Nat) (bs : List Block) :
    (fmtRow h [] bs).length = (bs.map (fun c => (fmt c 0 h).length)).foldr max 0 := by
  induction bs with
  | nil => rfl
  | cons b bs ih => rw [fmtRow_cons, mergeLines_length, ih]; rfl

theorem fmtRow_getD (h : Nat) (bs : List Block) (i : Nat) :
    (fmtRow h [] bs).getD i "" =
      String.join (bs.map (fun c => (fmt c 0 h).getD i "")) := by
  induction bs with
  | nil => rfl
  | cons b bs ih =>
    rw [fmtRow_cons, mergeLines_getD, ih, List.map_cons, string_join_cons]

/-! ### `set_width` / `set_height` before rendering just raise the pending size -/

theorem fmt_set_width (v : Int) (b : Block) (w h : Nat) :
    fmt (set_width v b) w h = fmt b (max v.toNat w) h := by
  cases b <;> simp [fmt, set_width, Nat.max_assoc]

theorem fmt_set_height (v : Int) (b : Block) (w h : Nat) :
    fmt (set_height v b) w h = fmt b w (max v.toNat h) := by
  cases b <;> simp [fmt, set_height, Nat.max_assoc]

theorem get_formatted_list_fst (b : Block) : (get_formatted_list b).1 = fmt b 0 0 := rfl

theorem render_set_width (cw : Nat) (c : Block) :
    (get_formatted_list (set_width (cw : Int) c)).1 = fmt c cw 0 := by
  rw [get_formatted_list_fst, fmt_set_width, Int.toNat_natCast, Nat.max_zero]

theorem render_set_height (ch : Nat) (c : Block) :
    (get_formatted_list (set_height (ch : Int) c)).1 = fmt c 0 ch := by
  rw [get_formatted_list_fst, fmt_set_height, Int.toNat_natCast, Nat.max_zero]

theorem column_render (bs : List Block) (cw ch : Nat) :
    (get_formatted_list (.column bs cw ch)).1 =
      (bs.map (fun c => (get_formatted_list (set_width (cw : Int) c)).1)).flatten := by
  rw [get_formatted_list_fst]
  show fmtColumn (max cw 0) [] bs = _
  rw [Nat.max_zero, fmtColumn_flatten]
  simp only [render_set_width]

theorem row_render (bs : List Block) (cw ch : Nat) :
    (get_formatted_list (.row bs cw ch)).1 = fmtRow ch [] bs := by
  rw [get_formatted_list_fst]
  show fmtRow (max ch 0) [] bs = _
  rw [Nat.max_zero]

theorem foldr_max_const {l : List Nat} {n : Nat} (hne : l ≠ [])
    (h : ∀ x ∈ l, x = n) : l.foldr max 0 = n := by
  induction l with
  | nil => exact absurd rfl hne
  | cons x xs ih =>
    have hx := h x (by simp)
    rcases xs with _ | ⟨y, ys⟩
    · simp [hx]
    · have hys : (y :: ys).foldr max 0 = n :=
        ih (by simp) (fun z hz => h z (by simp [hz]))
      simp only [List.foldr_cons] at hys ⊢
      rw [hys, hx]
      exact Nat.max_self n

/-- C3 (confirmed): `Column.render` pushes the column's width into each
child in insertion order (`child.set_width(self.width)`) and concatenates
the children's rendered lines top to bottom; `Row.render` pushes the row's
height into each child (`child.set_height(self.height)`) and, when every
child renders the same number `n` of lines, its output has `n` lines whose
`i`-th line is the concatenation, in child order, of the children's own
`i`-th lines. -/
theorem spec_C3 (bs : List Block) (cw ch n : Nat) (hne : bs ≠ [])
    (hn : ∀ c ∈ bs, ((get_formatted_list (set_height (ch : Int) c)).1).length = n) :
    (get_formatted_list (.column bs cw ch)).1 =
      (bs.map (fun c => (get_formatted_list (set_width (cw : Int) c)).1)).flatten ∧
    (get_formatted_list (.row bs cw ch)).1.length = n ∧
    ∀ i, i < n →
      (get_formatted_list (.row bs cw ch)).1.getD i "" =
        String.join (bs.map
          (fun c => ((get_formatted_list (set_height (ch : Int) c)).1).getD i "")) := by
  refine ⟨column_render bs cw ch, ?_, ?_⟩
  · rw [row_render, fmtRow_length]
    refine foldr_max_const (by simpa using hne) ?_
    intro x hx
    obtain ⟨c, hc, rfl⟩ := List.mem_map.1 hx
    have := hn c hc
    rwa [render_set_height] at this
  · intro i _
    rw [row_render, fmtRow_getD]
    simp only [render_set_height]

/-- Witness for C3 at a column/row of the two cells `"ab"`, `"c"` with
size 4 by 2: both children render 2 lines. -/
theorem spec_C3_witness :
    (get_formatted_list (Block.row [Element.make "ab", Element.make "c"] 4 2)).1.length
      = 2 :=
  (spec_C3 [Element.make "ab", Element.make "c"] 4 2 2
    (List.cons_ne_nil _ _) (by decide)).2.1

/-- C10 (confirmed): with no assumption on the children, `Row.render`
returns as many lines as the largest child line count (0 with no children),
and line `i` is the concatenation in child order of the children's `i`-th
lines, children without an `i`-th line contributing nothing (`getD i ""`
is the empty string exactly for those). -/
theorem spec_C10 (bs : List Block) (cw ch : Nat) :
    (get_formatted_list (.row bs cw ch)).1.length =
      (bs.map (fun c => ((get_formatted_list (set_height (ch : Int) c)).1).length)).foldr
        max 0 ∧
    ∀ i, i < (get_formatted_list (.row bs cw ch)).1.length →
      (get_formatted_list (.row bs cw ch)).1.getD i "" =
        String.join (bs.map
          (fun c => ((get_formatted_list (set_height (ch : Int) c)).1).getD i "")) := by
  constructor
  · rw [row_render, fmtRow_length]
    simp only [render_set_height]
  · intro i _
    rw [row_render, fmtRow_getD]
    simp only [render_set_height]

/-- Witness for C10 at a row of a `HorizontalLine` (renders one line) and a
`VerticalLine` of height 3 (renders three): the merged output is ragged. -/
theorem spec_C10_witness :
    (get_formatted_list
        (Block.row [HorizontalLine.make, set_height 3 VerticalLine.make] 0 3)).1.getD 0 ""
      = String.join ([HorizontalLine.make, set_height 3 VerticalLine.make].map
          (fun c => ((get_formatted_list (set_height (3 : Int) c)).1).getD 0 "")) :=
  (spec_C10 [HorizontalLine.make, set_height 3 VerticalLine.make] 0 3).2 0 (by decide)

/-! ### Element centering (C6, C7) -/

theorem and_and_one (m w : Nat) :
    m &&& w &&& 1 = if m % 2 = 1 ∧ w % 2 = 1 then 1 else 0 := by
  rw [Nat.and_assoc, Nat.and_one_is_mod]
  rcases Nat.mod_two_eq_zero_or_one w with hw | hw <;> rw [hw]
  · simp [Nat.and_zero, hw]
  · rw [Nat.and_one_is_mod]
    rcases Nat.mod_two_eq_zero_or_one m with hm | hm <;> simp [hm, hw]

theorem spaces_zero : spaces 0 = "" := rfl

theorem pyCenter_eq (t : String) (w : Nat) (hw : t.length ≤ w) :
    pyCenter t w =
      spaces ((w - t.length) / 2 + ((w - t.length) &&& w &&& 1)) ++ t ++
        spaces ((w - t.length) -
          ((w - t.length) / 2 + ((w - t.length) &&& w &&& 1))) := by
  rcases Nat.lt_or_ge t.length w with hlt | hge
  · rw [pyCenter, if_neg (by omega)]
  · have heq : w = t.length := le_antisymm hge hw
    subst heq
    rw [pyCenter, if_pos le_rfl]
    simp only [Nat.sub_self, Nat.zero_div, Nat.zero_add, Nat.zero_and, Nat.zero_sub,
      spaces_zero]
    rw [string_empty_append, string_append_empty]

theorem element_render_one (t : String) (w : Nat) :
    (get_formatted_list (.element t w 1)).1 = [pyCenter t w] := by
  rw [get_formatted_list_fst]
  simp [fmt]

/-- C7 (corrected) counterexample: `Cell("ab")` at width 5 satisfies
`width - len(text) = 3`, odd, yet renders `"  ab "` — two spaces on the
left and one on the right — not `" ab  "` as "extra space on the right"
would require (CPython's `str.center` puts the odd space left when the
target width is odd). -/
theorem spec_C7_counterexample :
    (get_formatted_list (Block.element "ab" 5 1)).1 = ["  ab "] ∧
    (get_formatted_list (Block.element "ab" 5 1)).1 ≠ [" ab  "] := by
  constructor <;> decide

/-- C7 (amended): for a `Cell` with `width ≥ len(text)`, the rendered text
line is the text between two space runs that exhaust `width - len(text)`,
balanced when that margin is even; when the margin is odd the extra space
goes to the right if `width` is even and to the left if `width` is odd. -/
theorem spec_C7 (t : String) (w : Nat) (hw : t.length ≤ w) :
    ∃ l r : Nat,
      (get_formatted_list (.element t w 1)).1 = [spaces l ++ t ++ spaces r] ∧
      l + r = w - t.length ∧
      ((w - t.length) % 2 = 0 → l = r) ∧
      ((w - t.length) % 2 = 1 →
        (w % 2 = 0 → r = l + 1) ∧ (w % 2 = 1 → l = r + 1)) := by
  refine ⟨(w - t.length) / 2 + ((w - t.length) &&& w &&& 1),
    (w - t.length) - ((w - t.length) / 2 + ((w - t.length) &&& w &&& 1)),
    ?_, ?_, ?_, ?_⟩
  · rw [element_render_one, pyCenter_eq t w hw]
  · rw [and_and_one]
    split_ifs <;> omega
  · intro h0
    rw [and_and_one]
    split_ifs <;> omega
  · intro h1
    constructor <;> intro hp <;> rw [and_and_one] <;> split_ifs <;> omega

/-- Witness for C7 at `Cell("X")`, width 6: margin 5 is odd, width even,
so the extra space is on the right (the line is `"  X   "`). -/
theorem spec_C7_witness :
    ∃ l r : Nat,
      (get_formatted_list (.element "X" 6 1)).1 = [spaces l ++ "X" ++ spaces r] ∧
      l + r = 6 - "X".length ∧
      ((6 - "X".length) % 2 = 0 → l = r) ∧
      ((6 - "X".length) % 2 = 1 →
        (6 % 2 = 0 → r = l + 1) ∧ (6 % 2 = 1 → l = r + 1)) :=
  spec_C7 "X" 6 (by decide)

/-- C6 (confirmed): a `Cell` of height `h ≥ 1` renders its text line after
`above` and before `under` full-width blank rows, where
`above = under = h / 2` for odd `h`, and `above = h / 2 - 1`,
`under = h / 2` for even `h` — so a height-4 cell has its text on line
index 1 (1 blank above, 2 below). -/
theorem spec_C6 (t : String) (w h : Nat) (h1 : 1 ≤ h) :
    (h % 2 = 1 →
      (get_formatted_list (.element t w h)).1 =
        List.replicate (h / 2) (spaces w) ++ [pyCenter t w] ++
          List.replicate (h / 2) (spaces w)) ∧
    (h % 2 = 0 →
      (get_formatted_list (.element t w h)).1 =
        List.replicate (h / 2 - 1) (spaces w) ++ [pyCenter t w] ++
          List.replicate (h / 2) (spaces w)) := by
  have _ := h1
  constructor <;> intro hp <;> rw [get_formatted_list_fst] <;> simp [fmt, hp]

/-- Witness for C6 at `Cell("X")` with width 3 and height 4: the even
branch gives 1 blank line above and 2 below the text line. -/
theorem spec_C6_witness :
    (get_formatted_list (Block.element "X" 3 4)).1 =
      List.replicate (4 / 2 - 1) (spaces 3) ++ [pyCenter "X" 3] ++
        List.replicate (4 / 2) (spaces 3) :=
  (spec_C6 "X" 3 4 (by decide)).2 (by decide)

/-! ### Rendering is idempotent on the mutated tree (C9) -/

mutual

theorem fmt_upd (b : Block) (w h w' h' : Nat) :
    fmt (upd b w h) w' h' = fmt b (max w w') (max h h') := by
  cases b with
  | element t bw bh => simp [fmt, upd, Nat.max_assoc]
  | horizontalLine bw bh => simp [fmt, upd, Nat.max_assoc]
  | verticalLine bw bh => simp [fmt, upd, Nat.max_assoc]
  | column bs bw bh =>
      show fmtColumn (max (max bw w) w') [] (updColumn (max bw w) bs) =
        fmtColumn (max bw (max w w')) [] bs
      rw [← Nat.max_assoc]
      exact fmtColumn_upd (max bw w) (max (max bw w) w') (Nat.le_max_left _ _) [] bs
  | row bs bw bh =>
      show fmtRow (max (max bh h) h') [] (updRow (max bh h) bs) =
        fmtRow (max bh (max h h')) [] bs
      rw [← Nat.max_assoc]
      exact fmtRow_upd (max bh h) (max (max bh h) h') (Nat.le_max_left _ _) [] bs

theorem fmtColumn_upd (W W' : Nat) (hWW : W ≤ W') (acc : List String)
    (bs : List Block) :
    fmtColumn W' acc (updColumn W bs) = fmtColumn W' acc bs := by
  cases bs with
  | nil => rfl
  | cons b bs =>
      show fmtColumn W' (acc ++ fmt (upd b W 0) W' 0) (updColumn W bs) =
        fmtColumn W' (acc ++ fmt b W' 0) bs
      rw [fmt_upd b W 0 W' 0, Nat.max_eq_right hWW]
      exact fmtColumn_upd W W' hWW _ bs

theorem fmtRow_upd (H H' : Nat) (hHH : H ≤ H') (acc : List String)
    (bs : List Block) :
    fmtRow H' acc (updRow H bs) = fmtRow H' acc bs := by
  cases bs with
  | nil => rfl
  | cons b bs =>
      show fmtRow H' (mergeLines acc (fmt (upd b 0 H) 0 H')) (updRow H bs) =
        fmtRow H' (mergeLines acc (fmt b 0 H')) bs
      rw [fmt_upd b 0 H 0 H', Nat.max_eq_right hHH]
      exact fmtRow_upd H H' hHH _ bs

end

/-- C9 (confirmed): rendering is idempotent — the size mutations a first
`render()` performs on the tree are fixed points for a second call, which
returns the same line sequence. -/
theorem spec_C9 (b : Block) :
    (get_formatted_list ((get_formatted_list b).2)).1 = (get_formatted_list b).1 := by
  show fmt (upd b 0 0) 0 0 = fmt b 0 0
  rw [fmt_upd, Nat.max_self]

/-! ### The size invariant (C1) -/

mutual

theorem min_setWidthAt (p : List Nat) (w : Int) (b : Block) :
    get_min_width (setWidthAt p w b) = get_min_width b ∧
    get_min_height (setWidthAt p w b) = get_min_height b := by
  cases p with
  | nil => cases b <;> exact ⟨rfl, rfl⟩
  | cons i p =>
    cases b with
    | element t bw bh => exact ⟨rfl, rfl⟩
    | horizontalLine bw bh => exact ⟨rfl, rfl⟩
    | verticalLine bw bh => exact ⟨rfl, rfl⟩
    | column bs bw bh =>
        have h := minL_setWidthAtL i p w bs
        exact ⟨by simp [setWidthAt, get_min_width, h.1],
          by simp [setWidthAt, get_min_height, h.2.1]⟩
    | row bs bw bh =>
        have h := minL_setWidthAtL i p w bs
        exact ⟨by simp [setWidthAt, get_min_width, h.2.2.1],
          by simp [setWidthAt, get_min_height, h.2.2.2]⟩

theorem minL_setWidthAtL (i : Nat) (p : List Nat) (w : Int) (bs : List Block) :
    maxMinWidth (setWidthAtL i p w bs) = maxMinWidth bs ∧
    sumMinHeight (setWidthAtL i p w bs) = sumMinHeight bs ∧
    sumMinWidth (setWidthAtL i p w bs) = sumMinWidth bs ∧
    maxMinHeight (setWidthAtL i p w bs) = maxMinHeight bs := by
  cases bs with
  | nil => cases i <;> exact ⟨rfl, rfl, rfl, rfl⟩
  | cons b bs =>
    cases i with
    | zero =>
        have h := min_setWidthAt p w b
        simp [setWidthAtL, maxMinWidth, sumMinHeight, sumMinWidth, maxMinHeight,
          h.1, h.2]
    | succ i =>
        have h := minL_setWidthAtL i p w bs
        simp [setWidthAtL, maxMinWidth, sumMinHeight, sumMinWidth, maxMinHeight,
          h.1, h.2.1, h.2.2.1, h.2.2.2]

end

mutual

theorem min_setHeightAt (p : List Nat) (v : Int) (b : Block) :
    get_min_width (setHeightAt p v b) = get_min_width b ∧
    get_min_height (setHeightAt p v b) = get_min_height b := by
  cases p with
  | nil => cases b <;> exact ⟨rfl, rfl⟩
  | cons i p =>
    cases b with
    | element t bw bh => exact ⟨rfl, rfl⟩
    | horizontalLine bw bh => exact ⟨rfl, rfl⟩
    | verticalLine bw bh => exact ⟨rfl, rfl⟩
    | column bs bw bh =>
        have h := minL_setHeightAtL i p v bs
        exact ⟨by simp [setHeightAt, get_min_width, h.1],
          by simp [setHeightAt, get_min_height, h.2.1]⟩
    | row bs bw bh =>
        have h := minL_setHeightAtL i p v bs
        exact ⟨by simp [setHeightAt, get_min_width, h.2.2.1],
          by simp [setHeightAt, get_min_height, h.2.2.2]⟩

theorem minL_setHeightAtL (i : Nat) (p : List Nat) (v : Int) (bs : List Block) :
    maxMinWidth (setHeightAtL i p v bs) = maxMinWidth bs ∧
    sumMinHeight (setHeightAtL i p v bs) = sumMinHeight bs ∧
    sumMinWidth (setHeightAtL i p v bs) = sumMinWidth bs ∧
    maxMinHeight (setHeightAtL i p v bs) = maxMinHeight bs := by
  cases bs with
  | nil => cases i <;> exact ⟨rfl, rfl, rfl, rfl⟩
  | cons b bs =>
    cases i with
    | zero =>
        have h := min_setHeightAt p v b
        simp [setHeightAtL, maxMinWidth, sumMinHeight, sumMinWidth, maxMinHeight,
          h.1, h.2]
    | succ i =>
        have h := minL_setHeightAtL i p v bs
        simp [setHeightAtL, maxMinWidth, sumMinHeight, sumMinWidth, maxMinHeight,
          h.1, h.2.1, h.2.2.1, h.2.2.2]

end

mutual

theorem goodTree_setWidthAt (p : List Nat) (w : Int) (b : Block)
    (hb : goodTree b = true) : goodTree (setWidthAt p w b) = true := by
  cases p with
  | nil =>
    cases b <;>
      simp_all [setWidthAt, goodTree, set_width, get_min_width, get_min_height]
  | cons i p =>
    cases b with
    | element t bw bh => exact hb
    | horizontalLine bw bh => exact hb
    | verticalLine bw bh => exact hb
    | column bs bw bh =>
        have hm := minL_setWidthAtL i p w bs
        simp only [setWidthAt, goodTree, Bool.and_eq_true, decide_eq_true_eq,
          get_min_width, get_min_height] at hb ⊢
        refine ⟨⟨?_, ?_⟩, ?_⟩
        · rw [hm.1]; exact hb.1.1
        · rw [hm.2.1]; exact hb.1.2
        · exact goodTreeL_setWidthAtL i p w bs hb.2
    | row bs bw bh =>
        have hm := minL_setWidthAtL i p w bs
        simp only [setWidthAt, goodTree, Bool.and_eq_true, decide_eq_true_eq,
          get_min_width, get_min_height] at hb ⊢
        refine ⟨⟨?_, ?_⟩, ?_⟩
        · rw [hm.2.2.1]; exact hb.1.1
        · rw [hm.2.2.2]; exact hb.1.2
        · exact goodTreeL_setWidthAtL i p w bs hb.2

theorem goodTreeL_setWidthAtL (i : Nat) (p : List Nat) (w : Int) (bs : List Block)
    (hb : goodTreeL bs = true) : goodTreeL (setWidthAtL i p w bs) = true := by
  cases bs with
  | nil => cases i <;> exact hb
  | cons b bs =>
    simp only [goodTreeL, Bool.and_eq_true] at hb
    cases i with
    | zero =>
        simp only [setWidthAtL, goodTreeL, Bool.and_eq_true]
        exact ⟨goodTree_setWidthAt p w b hb.1, hb.2⟩
    | succ i =>
        simp only [setWidthAtL, goodTreeL, Bool.and_eq_true]
        exact ⟨hb.1, goodTreeL_setWidthAtL i p w bs hb.2⟩

end

mutual

theorem goodTree_setHeightAt (p : List Nat) (v : Int) (b : Block)
    (hb : goodTree b = true) : goodTree (setHeightAt p v b) = true := by
  cases p with
  | nil =>
    cases b <;>
      simp_all [setHeightAt, goodTree, set_height, get_min_width, get_min_height]
  | cons i p =>
    cases b with
    | element t bw bh => exact hb
    | horizontalLine bw bh => exact hb
    | verticalLine bw bh => exact hb
    | column bs bw bh =>
        have hm := minL_setHeightAtL i p v bs
        simp only [setHeightAt, goodTree, Bool.and_eq_true, decide_eq_true_eq,
          get_min_width, get_min_height] at hb ⊢
        refine ⟨⟨?_, ?_⟩, ?_⟩
        · rw [hm.1]; exact hb.1.1
        · rw [hm.2.1]; exact hb.1.2
        · exact goodTreeL_setHeightAtL i p v bs hb.2
    | row bs bw bh =>
        have hm := minL_setHeightAtL i p v bs
        simp only [setHeightAt, goodTree, Bool.and_eq_true, decide_eq_true_eq,
          get_min_width, get_min_height] at hb ⊢
        refine ⟨⟨?_, ?_⟩, ?_⟩
        · rw [hm.2.2.1]; exact hb.1.1
        · rw [hm.2.2.2]; exact hb.1.2
        · exact goodTreeL_setHeightAtL i p v bs hb.2

theorem goodTreeL_setHeightAtL (i : Nat) (p : List Nat) (v : Int) (bs : List Block)
    (hb : goodTreeL bs = true) : goodTreeL (setHeightAtL i p v bs) = true := by
  cases bs with
  | nil => cases i <;> exact hb
  | cons b bs =>
    simp only [goodTreeL, Bool.and_eq_true] at hb
    cases i with
    | zero =>
        simp only [setHeightAtL, goodTreeL, Bool.and_eq_true]
        exact ⟨goodTree_setHeightAt p v b hb.1, hb.2⟩
    | succ i =>
        simp only [setHeightAtL, goodTreeL, Bool.and_eq_true]
        exact ⟨hb.1, goodTreeL_setHeightAtL i p v bs hb.2⟩

end

theorem goodTreeL_append (bs : List Block) (c : Block) :
    goodTreeL (bs ++ [c]) = (goodTreeL bs && goodTree c) := by
  induction bs with
  | nil => simp [goodTreeL]
  | cons b bs ih => simp [goodTreeL, ih, Bool.and_assoc]

theorem goodTree_add_block (b c : Block) (hb : goodTree b = true)
    (hc : goodTree c = true) : goodTree (add_block b c) = true := by
  cases b with
  | element t bw bh => exact hb
  | horizontalLine bw bh => exact hb
  | verticalLine bw bh => exact hb
  | column bs bw bh =>
      simp only [add_block, goodTree, Bool.and_eq_true, decide_eq_true_eq,
        get_min_width, get_min_height] at hb ⊢
      refine ⟨⟨Nat.le_max_right _ _, Nat.le_max_right _ _⟩, ?_⟩
      rw [goodTreeL_append, hb.2, hc]
      rfl
  | row bs bw bh =>
      simp only [add_block, goodTree, Bool.and_eq_true, decide_eq_true_eq,
        get_min_width, get_min_height] at hb ⊢
      refine ⟨⟨Nat.le_max_right _ _, Nat.le_max_right _ _⟩, ?_⟩
      rw [goodTreeL_append, hb.2, hc]
      rfl

/-- C1 counterexample: the claim quantifies over "any sequence of
addBlock/setWidth/setHeight calls anywhere in the tree".  Build
`Column[Column[Cell "abc"]]` bottom-up (the invariant holds), then call
`add_block(Cell "abcdefgh")` on the inner column: the inner column widens
itself to 10, but the outer column keeps width 5 while its
`get_min_width()` is now 10 — `width >= minWidth` fails at the root. -/
theorem spec_C1_counterexample :
    goodTree (add_block Column.make (add_block Column.make (Element.make "abc")))
      = true ∧
    goodTree (addBlockAt [0] (Element.make "abcdefgh")
      (add_block Column.make (add_block Column.make (Element.make "abc"))))
      = false := by
  constructor <;> rfl

/-- C1 (amended): the invariant `width ≥ getMinWidth()` and
`height ≥ getMinHeight()` holds at every node, at all times, for every tree
reachable by the module's construction discipline: the five constructors,
`setWidth`/`setHeight` on any block anywhere in the tree, and `addBlock`
on a block that is not yet inside a container (i.e. at the root of its own
tree, children being attached before their parent is) — `addBlock` on a
block already inside a container can break the ancestors' invariant. -/
theorem spec_C1 {b : Block} (hb : Built b) : goodTree b = true := by
  induction hb with
  | element t => simp [goodTree, Element.make, get_min_width, get_min_height]
  | horizontalLine => rfl
  | verticalLine => rfl
  | column => rfl
  | row => rfl
  | setW p w _ ih => exact goodTree_setWidthAt p w _ ih
  | setH p v _ ih => exact goodTree_setHeightAt p v _ ih
  | addB _ _ ih1 ih2 => exact goodTree_add_block _ _ ih1 ih2

/-- Witness for C1: a column built from a cell, then widened through a path:
the whole tree satisfies the invariant. -/
theorem spec_C1_witness :
    goodTree (setWidthAt [0] 7 (add_block Column.make (Element.make "hi"))) = true :=
  spec_C1 (Built.setW [0] 7 (Built.addB Built.column (Built.element "hi")))

/-! ### Exact rendering of size-consistent blocks (C2) -/

theorem spaces_length (n : Nat) : (spaces n).length = n := by
  simp [spaces]

theorem pyCenter_length (t : String) (w : Nat) (hw : t.length ≤ w) :
    (pyCenter t w).length = w := by
  rw [pyCenter_eq t w hw, String.length_append, String.length_append,
    spaces_length, spaces_length, and_and_one]
  split_ifs <;> omega

theorem mem_getD (L : List String) (l : String) (hl : l ∈ L) :
    ∃ i, i < L.length ∧ L.getD i "" = l := by
  obtain ⟨i, hi, rfl⟩ := List.mem_iff_getElem.1 hl
  exact ⟨i, hi, List.getD_eq_getElem L "" hi⟩

theorem getD_mem (L : List String) (i : Nat) (hi : i < L.length) :
    L.getD i "" ∈ L := by
  rw [List.getD_eq_getElem L "" hi]
  exact List.getElem_mem _

mutual

theorem fmt_finalized (b : Block) (w h : Nat) (hf : finalized b w h = true) :
    (fmt b w h).length = max b.height h ∧
    ∀ l ∈ fmt b w h, l.length = max b.width w := by
  cases b with
  | element t bw bh =>
    simp only [finalized, Bool.and_eq_true, decide_eq_true_eq] at hf
    obtain ⟨h1, h2⟩ := hf
    constructor
    · simp only [fmt, Block.height, List.length_append, List.length_replicate,
        List.length_singleton]
      rcases Nat.mod_two_eq_zero_or_one (max bh h) with hp | hp <;> simp [hp] <;> omega
    · intro l hl
      simp only [fmt, List.mem_append, List.mem_replicate, List.mem_singleton] at hl
      rcases hl with (⟨_, rfl⟩ | rfl) | ⟨_, rfl⟩
      · exact spaces_length _
      · exact pyCenter_length t _ h1
      · exact spaces_length _
  | horizontalLine bw bh =>
    simp only [finalized, beq_iff_eq] at hf
    constructor
    · simp [fmt, Block.height, hf]
    · intro l hl
      simp only [fmt, List.mem_singleton] at hl
      subst hl
      simp [Block.width, String.length_mk]
  | verticalLine bw bh =>
    simp only [finalized, beq_iff_eq] at hf
    constructor
    · simp [fmt, Block.height]
    · intro l hl
      simp only [fmt, List.mem_replicate] at hl
      rw [hl.2, Block.width, hf]
      rfl
  | column bs bw bh =>
    simp only [finalized, Bool.and_eq_true, beq_iff_eq] at hf
    obtain ⟨hcol, hsum⟩ := hf
    have hc := fmtColumn_finalized (max bw w) bs hcol
    constructor
    · show (fmtColumn (max bw w) [] bs).length = _
      rw [hc.1, hsum, Block.height]
    · intro l hl
      exact hc.2 l hl
  | row bs bw bh =>
    simp only [finalized, Bool.and_eq_true, beq_iff_eq, Bool.or_eq_true,
      Bool.not_eq_true'] at hf
    obtain ⟨⟨hrow, hsw⟩, hemp⟩ := hf
    cases bs with
    | nil =>
      constructor
      · show ([] : List String).length = _
        simp only [List.isEmpty_cons, List.isEmpty_nil] at hemp
        rcases hemp with hemp | hemp
        · exact absurd hemp (by simp)
        · simp [Block.height, hemp]
      · intro l hl
        exact absurd hl (List.not_mem_nil l)
    | cons b bs =>
      have hr := fmtRow_finalized (max bh h) (b :: bs) hrow (List.cons_ne_nil _ _)
      constructor
      · show (fmtRow (max bh h) [] (b :: bs)).length = _
        rw [hr.1, Block.height]
      · intro l hl
        have := hr.2 l hl
        rw [this, hsw, Block.width]

theorem fmtColumn_finalized (W : Nat) (bs : List Block) (hf : finColL W bs = true) :
    (fmtColumn W [] bs).length = sumHeights bs ∧
    ∀ l ∈ fmtColumn W [] bs, l.length = W := by
  cases bs with
  | nil =>
    refine ⟨rfl, ?_⟩
    intro l hl
    exact absurd hl (List.not_mem_nil l)
  | cons b bs =>
    simp only [finColL, Bool.and_eq_true, decide_eq_true_eq] at hf
    obtain ⟨⟨hb, hbw⟩, hbs⟩ := hf
    have h1 := fmt_finalized b W 0 hb
    rw [Nat.max_zero] at h1
    have h2 := fmtColumn_finalized W bs hbs
    have heq : fmtColumn W [] (b :: bs) = fmt b W 0 ++ fmtColumn W [] bs := by
      show fmtColumn W ([] ++ fmt b W 0) bs = _
      rw [List.nil_append, fmtColumn_acc]
    rw [heq]
    constructor
    · rw [List.length_append, h1.1, h2.1]
      rfl
    · intro l hl
      rcases List.mem_append.1 hl with hm | hm
      · have := h1.2 l hm
        rwa [Nat.max_eq_right hbw] at this
      · exact h2.2 l hm

theorem fmtRow_finalized (H : Nat) (bs : List Block) (hf : finRowL H bs = true) :
    bs ≠ [] → (fmtRow H [] bs).length = H ∧
      ∀ l ∈ fmtRow H [] bs, l.length = sumWidths bs := by
  cases bs with
  | nil => intro hne; exact absurd rfl hne
  | cons b bs =>
    intro _
    simp only [finRowL, Bool.and_eq_true, decide_eq_true_eq] at hf
    obtain ⟨⟨hb, hbh⟩, hbs⟩ := hf
    have h1 := fmt_finalized b 0 H hb
    rw [Nat.max_eq_right hbh, Nat.max_zero] at h1
    rw [fmtRow_cons]
    cases bs with
    | nil =>
      rw [show fmtRow H [] ([] : List Block) = [] from rfl, mergeLines_nil_right]
      refine ⟨h1.1, ?_⟩
      intro l hl
      have := h1.2 l hl
      simp [sumWidths, this]
    | cons c cs =>
      have h2 := fmtRow_finalized H (c :: cs) hbs (List.cons_ne_nil _ _)
      have hlen : (mergeLines (fmt b 0 H) (fmtRow H [] (c :: cs))).length = H := by
        rw [mergeLines_length, h1.1, h2.1, Nat.max_self]
      refine ⟨hlen, ?_⟩
      intro l hl
      obtain ⟨i, hi, hgd⟩ := mem_getD _ l hl
      rw [hlen] at hi
      rw [mergeLines_getD] at hgd
      have m1 := getD_mem (fmt b 0 H) i (by rw [h1.1]; exact hi)
      have m2 := getD_mem (fmtRow H [] (c :: cs)) i (by rw [h2.1]; exact hi)
      have e1 := h1.2 _ m1
      have e2 := h2.2 _ m2
      rw [← hgd, String.length_append, e1, e2]
      rfl

end

/-- C2 counterexample: a `HorizontalLine` whose height was raised to 2 by
`set_height` (its size is final — no further calls touch it) still renders
a single line, not `height` lines. -/
theorem spec_C2_counterexample :
    (get_formatted_list (set_height 2 HorizontalLine.make)).1.length ≠
      (set_height 2 HorizontalLine.make).height := by
  decide

/-- C2 (amended): `render()` returns exactly `height` strings of exactly
`width` characters for every block in a size-consistent state (`finalized`):
an `Element` needs `height ≥ 1` and `width ≥ len(text)`; a `HorizontalLine`
needs `height = 1` and a `VerticalLine` `width = 1` (they ignore the other
dimension when rendering); a `Column` needs children no wider than itself,
recursively consistent once its width is pushed into them, with heights
summing to its height; a `Row` dually.  The sizes produced by the normal
bottom-up construction satisfy this; an oversized leaf (see the
counterexample) does not. -/
theorem spec_C2 (b : Block) (hf : finalized b 0 0 = true) :
    (get_formatted_list b).1.length = b.height ∧
    ∀ l ∈ (get_formatted_list b).1, l.length = b.width := by
  have h := fmt_finalized b 0 0 hf
  rw [Nat.max_zero, Nat.max_zero] at h
  rw [get_formatted_list_fst]
  exact h

/-- Witness for C2 at the column `Column[Cell "ab", HorizontalLine]`
(width 4, height 2), which is size-consistent. -/
theorem spec_C2_witness :
    (get_formatted_list
        (add_block (add_block Column.make (Element.make "ab")) HorizontalLine.make)).1.length
      = (add_block (add_block Column.make (Element.make "ab")) HorizontalLine.make).height ∧
    ∀ l ∈ (get_formatted_list
        (add_block (add_block Column.make (Element.make "ab")) HorizontalLine.make)).1,
      l.length
        = (add_block (add_block Column.make (Element.make "ab")) HorizontalLine.make).width :=
  spec_C2 (add_block (add_block Column.make (Element.make "ab")) HorizontalLine.make)
    (by decide)

/-- C8 (confirmed): building the transportation table for the docstring's
example inputs — supplies `140.0, 180.0, 160.0`, the 3×5 cost matrix, and
demands `60.0, 70.0, 120.0, 130.0, 100.0` — and rendering it produces
exactly the character grid printed in the module docstring, line for line. -/
theorem spec_C8 :
    (get_formatted_list (TransportationProblemTableFormatter.format
      ⟨[140, 180, 160],
       [[2, 3, 4, 2, 4], [8, 4, 1, 4, 1], [9, 7, 3, 7, 2]],
       [60, 70, 120, 130, 100]⟩)).1 =
    ["-----------------------------------------------------",
     "|        |           Destination           |        |",
     "| Source |---------------------------------| Supply |",
     "|        |  D1    D2     D3     D4     D5  |        |",
     "|--------|---------------------------------|--------|",
     "|   A1   | 2.0   3.0    4.0    2.0    4.0  | 140.0  |",
     "|   A2   | 8.0   4.0    1.0    4.0    1.0  | 180.0  |",
     "|   A3   | 9.0   7.0    3.0    7.0    2.0  | 160.0  |",
     "|--------|---------------------------------|--------|",
     "| Demand | 60.0  70.0  120.0  130.0  100.0 | 480.0  |",
     "-----------------------------------------------------"] := by
  rfl

end TableFormatter

